import Mathlib

/-!
# Verification of the turms reference-resolution and return-type core

Shallow embedding of `turms/referencer.py` and `turms/plugins/funcs.py`
(graphql schema-driven code generator).  GraphQL AST nodes and resolved
schema types are modelled as inductive trees, the mutable
`ReferenceRegistry` as a structure of finite string sets threaded through
the recursion, and Python exceptions as `Except` errors.
-/

namespace Turms

/-- Resolved GraphQL schema types (`graphql.type.definition.GraphQLType`).
Wrapper chains (`GraphQLNonNull`, `GraphQLList`) end in a named type;
object/interface/input types carry their field map (`.fields`, with each
field's resolved `.type`) directly, as the Python objects do. -/
inductive GType where
  | scalar (name : String)
  | enum (name : String)
  | object (name : String) (fields : List (String × GType))
  | interface (name : String) (fields : List (String × GType))
  | union (name : String)
  | inputObject (name : String) (fields : List (String × GType))
  | nonNull (ofType : GType)
  | list (ofType : GType)

/-- The `.name` attribute of a (named) GraphQL type. Wrappers have no
name in graphql-core; we return "" there (never consulted by the code). -/
def GType.name : GType → String
  | .scalar n => n
  | .enum n => n
  | .object n _ => n
  | .interface n _ => n
  | .union n => n
  | .inputObject n _ => n
  | .nonNull _ => ""
  | .list _ => ""

/-- The `.fields` attribute: present on object, interface and input object
types, absent (Python `AttributeError` on access) otherwise. -/
def GType.fieldMap : GType → Option (List (String × GType))
  | .object _ fs => some fs
  | .interface _ fs => some fs
  | .inputObject _ fs => some fs
  | _ => none

/-- Dictionary lookup `fields[name]` (raises `KeyError` when absent,
modelled by `none` at the call sites). -/
def lookupField (fields : List (String × GType)) (n : String) : Option GType :=
  (fields.find? (fun p => p.1 == n)).map (fun p => p.2)

/-- GraphQL type nodes from the *document* AST
(`NamedTypeNode`/`ListTypeNode`/`NonNullTypeNode`), as appear in variable
declarations. -/
inductive TypeNode where
  | named (name : String)
  | list (ofType : TypeNode)
  | nonNull (ofType : TypeNode)
deriving DecidableEq

/-- The underlying named terminal of a wrapper chain of type nodes. -/
def TypeNode.terminalName : TypeNode → String
  | .named n => n
  | .list t => t.terminalName
  | .nonNull t => t.terminalName

/-- `query` / `mutation` / `subscription` (`OperationType`). -/
inductive OperationType where
  | query
  | mutation
  | subscription
deriving DecidableEq

mutual
/-- `graphql.language.ast.FieldNode`: name, optional alias (`aliasName`;
`alias` is a Lean keyword), optional selection set (the selection set's
`.selections` list inlined). -/
inductive FieldNode where
  | mk (name : String) (aliasName : Option String)
      (selectionSet : Option (List Selection))

/-- A node of a selection set: field, fragment spread, or inline fragment
(whose `type_condition` is optional in the AST). -/
inductive Selection where
  | field (f : FieldNode)
  | fragmentSpread (name : String)
  | inlineFragment (typeCondition : Option String)
      (selections : List Selection)
end

def FieldNode.name : FieldNode → String
  | .mk n _ _ => n

def FieldNode.aliasName : FieldNode → Option String
  | .mk _ a _ => a

def FieldNode.selectionSet : FieldNode → Option (List Selection)
  | .mk _ _ s => s

/-- A GraphQL schema as consumed by the core: the named-type map
(`get_type`) and the three root operation types. -/
structure Schema where
  types : List (String × GType)
  queryType : Option GType
  mutationType : Option GType
  subscriptionType : Option GType

/-- `schema.get_type(name)` — pure lookup, `None` when absent. -/
def Schema.get_type (s : Schema) (n : String) : Option GType :=
  (s.types.find? (fun p => p.1 == n)).map (fun p => p.2)

/-- `schema.get_root_type(operation)` — `None` when the schema does not
define that root. -/
def Schema.get_root_type (s : Schema) : OperationType → Option GType
  | .query => s.queryType
  | .mutation => s.mutationType
  | .subscription => s.subscriptionType

/-- `ReferenceRegistry` (referencer.py): six set-valued categories.
Python `set` of strings is modelled as `Finset String`. -/
structure ReferenceRegistry where
  objects : Finset String
  fragments : Finset String
  enums : Finset String
  inputs : Finset String
  scalars : Finset String
  operations : Finset String
deriving DecidableEq

/-- `ReferenceRegistry()` — all six sets start empty. -/
def ReferenceRegistry.empty : ReferenceRegistry :=
  ⟨∅, ∅, ∅, ∅, ∅, ∅⟩

def ReferenceRegistry.register_type (r : ReferenceRegistry) (n : String) :
    ReferenceRegistry :=
  { r with objects := insert n r.objects }

def ReferenceRegistry.register_fragment (r : ReferenceRegistry) (n : String) :
    ReferenceRegistry :=
  { r with fragments := insert n r.fragments }

def ReferenceRegistry.register_enum (r : ReferenceRegistry) (n : String) :
    ReferenceRegistry :=
  { r with enums := insert n r.enums }

def ReferenceRegistry.register_input (r : ReferenceRegistry) (n : String) :
    ReferenceRegistry :=
  { r with inputs := insert n r.inputs }

def ReferenceRegistry.register_scalar (r : ReferenceRegistry) (n : String) :
    ReferenceRegistry :=
  { r with scalars := insert n r.scalars }

/-- Python exceptions raised (explicitly or implicitly) by the embedded
code.  `unknownType` is `Exception("Unknown Type", ...)` in
`recurse_find_references`, `unknownSubtype` is
`Exception("Unknown Subtype", ...)` in `recurse_type_annotation`; the
others model implicit `AttributeError` / `KeyError` / `IndexError` /
`GraphQLError` / `AssertionError` failures at the marked spots. -/
inductive PyErr where
  | unknownType (typeName : String)
  | unknownSubtype (node : TypeNode)
  | attributeError (attr : String)
  | keyError (key : String)
  | indexError (i : Nat)
  | rootTypeError
  | assertionError (msg : String)
deriving DecidableEq

mutual
/-- `recurse_find_references(node, graphql_type, client_schema, registry,
is_optional=True)` (referencer.py:54-193), with the mutated registry
threaded explicitly and Python exceptions as `Except.error`.  The three
inline `for` loops become the four list walkers below. -/
def recurse_find_references (node : FieldNode) (graphql_type : GType)
    (client_schema : Schema) (registry : ReferenceRegistry)
    (is_optional : Bool) : Except PyErr ReferenceRegistry :=
  match graphql_type, node with
  | .union _, .mk _ _ none => .error (.attributeError "selection_set")
  | .union _, .mk _ _ (some sels) =>
      findRefsUnionSelections sels client_schema registry
  | .interface _ fields, .mk _ _ none => .error (.attributeError "selection_set")
  | .interface _ fields, .mk _ _ (some sels) =>
      findRefsCompositeSelections fields sels client_schema registry
  | .object _ fields, .mk _ _ none => .error (.attributeError "selection_set")
  | .object _ fields, .mk _ _ (some sels) =>
      findRefsCompositeSelections fields sels client_schema registry
  | .scalar n, _ => .ok (registry.register_scalar n)
  | .enum n, _ => .ok (registry.register_enum n)
  | .nonNull inner, nd =>
      recurse_find_references nd inner client_schema registry false
  | .list inner, nd =>
      recurse_find_references nd inner client_schema registry false
  | .inputObject n _, _ => .error (.unknownType n)
termination_by (sizeOf node, sizeOf graphql_type)

/-- The union branch's `for sub_node in node.selection_set.selections`
loop (referencer.py:63-85): fragment spreads registered, inline fragments
delegated, plain fields ignored.  An early `return` from the inner loop
ends the whole call. -/
def findRefsUnionSelections (sels : List Selection) (client_schema : Schema)
    (registry : ReferenceRegistry) : Except PyErr ReferenceRegistry :=
  match sels with
  | [] => .ok registry
  | .field _ :: rest => findRefsUnionSelections rest client_schema registry
  | .fragmentSpread n :: rest =>
      findRefsUnionSelections rest client_schema (registry.register_fragment n)
  | .inlineFragment cond isels :: rest =>
      match findRefsUnionInline cond isels client_schema registry with
      | .error e => .error e
      | .ok (.inr r) => .ok r
      | .ok (.inl r) => findRefsUnionSelections rest client_schema r
termination_by (sizeOf sels, 0)

/-- The union branch's inner loop over an inline fragment's selections
(referencer.py:69-85).  On the first field that is not `__typename` the
Python code `return`s the recursive call — `.inr` signals that early
return, `.inl` that the loop finished and iteration continues. -/
def findRefsUnionInline (cond : Option String) (isels : List Selection)
    (client_schema : Schema) (registry : ReferenceRegistry) :
    Except PyErr (ReferenceRegistry ⊕ ReferenceRegistry) :=
  match isels with
  | [] => .ok (.inl registry)
  | .field f :: rest =>
      match cond with
      | none => .error (.attributeError "name")
      | some c =>
          if f.name == "__typename" then
            findRefsUnionInline cond rest client_schema registry
          else
            match (client_schema.get_type c).bind GType.fieldMap with
            | none => .error (.attributeError "fields")
            | some tfields =>
                match lookupField tfields f.name with
                | none => .error (.keyError f.name)
                | some ftype =>
                    match recurse_find_references f ftype client_schema
                        registry true with
                    | .error e => .error e
                    | .ok r => .ok (.inr r)
  | _ :: rest => findRefsUnionInline cond rest client_schema registry
termination_by (sizeOf isels, 0)

/-- The (identical) interface- and object-branch loops over
`node.selection_set.selections` (referencer.py:90-125 and 129-164):
direct fields recurse against the parent's field types, fragment spreads
register, inline fragments delegate; no early return. -/
def findRefsCompositeSelections (tfields : List (String × GType))
    (sels : List Selection) (client_schema : Schema)
    (registry : ReferenceRegistry) : Except PyErr ReferenceRegistry :=
  match sels with
  | [] => .ok registry
  | .field f :: rest =>
      if f.name == "__typename" then
        findRefsCompositeSelections tfields rest client_schema registry
      else
        match lookupField tfields f.name with
        | none => .error (.keyError f.name)
        | some ftype =>
            match recurse_find_references f ftype client_schema registry
                true with
            | .error e => .error e
            | .ok r => findRefsCompositeSelections tfields rest client_schema r
  | .fragmentSpread n :: rest =>
      findRefsCompositeSelections tfields rest client_schema
        (registry.register_fragment n)
  | .inlineFragment cond isels :: rest =>
      match findRefsCompositeInline cond isels client_schema registry with
      | .error e => .error e
      | .ok r => findRefsCompositeSelections tfields rest client_schema r
termination_by (sizeOf sels, 0)

/-- The interface/object branches' inner loop over an inline fragment's
selections (referencer.py:109-125 / 148-164): the type condition is
resolved from the schema and each non-`__typename` field recurses; the
loop continues afterwards (no early return here). -/
def findRefsCompositeInline (cond : Option String) (isels : List Selection)
    (client_schema : Schema) (registry : ReferenceRegistry) :
    Except PyErr ReferenceRegistry :=
  match isels with
  | [] => .ok registry
  | .field f :: rest =>
      match cond with
      | none => .error (.attributeError "name")
      | some c =>
          if f.name == "__typename" then
            findRefsCompositeInline cond rest client_schema registry
          else
            match (client_schema.get_type c).bind GType.fieldMap with
            | none => .error (.attributeError "fields")
            | some tfields =>
                match lookupField tfields f.name with
                | none => .error (.keyError f.name)
                | some ftype =>
                    match recurse_find_references f ftype client_schema
                        registry true with
                    | .error e => .error e
                    | .ok r => findRefsCompositeInline cond rest client_schema r
  | _ :: rest => findRefsCompositeInline cond rest client_schema registry
termination_by (sizeOf isels, 0)
end

/-- `recurse_type_annotation(graphql_type, schema, registry, optional=True)`
(referencer.py:196-227): unwraps `NonNullTypeNode`/`ListTypeNode` wrappers
of a variable-declaration type node; at the `NamedTypeNode` terminal the
resolved schema type is registered as scalar / input / enum, any other
resolution (including an unknown name) raises
`Exception("Unknown Subtype", type(node), node)`.  The `optional` flag is
threaded exactly as in the source (false under `NonNull`, reset to the
default true under `List`) but has no effect on the outcome. -/
def recurse_type_annotation (graphql_type : TypeNode) (schema : Schema)
    (registry : ReferenceRegistry) (optional : Bool) :
    Except PyErr ReferenceRegistry :=
  match graphql_type with
  | .nonNull inner => recurse_type_annotation inner schema registry false
  | .list inner => recurse_type_annotation inner schema registry true
  | .named n =>
      match schema.get_type n with
      | some (.scalar zname) => .ok (registry.register_scalar zname)
      | some (.inputObject zname _) => .ok (registry.register_input zname)
      | some (.enum zname) => .ok (registry.register_enum zname)
      | _ => .error (.unknownSubtype (.named n))

/-- `VariableDefinitionNode`: variable name and declared type node. -/
structure VariableDefinitionNode where
  variableName : String
  type : TypeNode

/-- `OperationDefinitionNode`: name, operation kind, variable definitions
and (possibly absent) selection set. -/
structure OperationDefinitionNode where
  name : String
  operation : OperationType
  selectionSet : Option (List Selection)
  variable_definitions : List VariableDefinitionNode

/-- `FragmentDefinitionNode`: name, type condition, selection set. -/
structure FragmentDefinitionNode where
  name : String
  typeCondition : String
  selectionSet : List Selection

/-- A top-level definition of a parsed document. -/
inductive Definition where
  | fragment (f : FragmentDefinitionNode)
  | operation (o : OperationDefinitionNode)

/-- Python `dict` assignment `d[k] = v`: replaces the value at an existing
key in place, otherwise appends at the end (insertion order preserved). -/
def dictInsert {α : Type} : List (String × α) → String → α → List (String × α)
  | [], k, v => [(k, v)]
  | (k', v') :: rest, k, v =>
      if k' == k then (k, v) :: rest else (k', v') :: dictInsert rest k v

/-- Python `d[k]` / `k in d` lookup on the association-list dict model. -/
def dictLookup {α : Type} : List (String × α) → String → Option α
  | [], _ => none
  | (k', v') :: rest, k => if k' == k then some v' else dictLookup rest k

/-- The first loop of `create_reference_registry_from_documents`
(referencer.py:240-244), fragment half: `fragments[definition.name.value]
= definition`, folded over the document's definitions in order. -/
def collectFragmentsFrom (acc : List (String × FragmentDefinitionNode)) :
    List Definition → List (String × FragmentDefinitionNode)
  | [] => acc
  | .fragment f :: rest => collectFragmentsFrom (dictInsert acc f.name f) rest
  | .operation _ :: rest => collectFragmentsFrom acc rest

/-- The fragments dict after the collection loop. -/
def collectFragments (defs : List Definition) :
    List (String × FragmentDefinitionNode) :=
  collectFragmentsFrom [] defs

/-- The first loop of `create_reference_registry_from_documents`
(referencer.py:240-244), operation half: `operations[definition.name.value]
= definition`. -/
def collectOperationsFrom (acc : List (String × OperationDefinitionNode)) :
    List Definition → List (String × OperationDefinitionNode)
  | [] => acc
  | .fragment _ :: rest => collectOperationsFrom acc rest
  | .operation o :: rest => collectOperationsFrom (dictInsert acc o.name o) rest

/-- The operations dict after the collection loop. -/
def collectOperations (defs : List Definition) :
    List (String × OperationDefinitionNode) :=
  collectOperationsFrom [] defs

/-- The selection loop shared by the fragment and operation walks of
`create_reference_registry_from_documents` (referencer.py:249-262 and
271-284): for each top-level `FieldNode` that is not `__typename`, look
up `type.fields[name]` on the enclosing type (`parent`, which may be
`None` — `AttributeError` on first use) and recurse. Fragment spreads and
inline fragments at this level are silently skipped by the source. -/
def walkTopSelections (parent : Option GType) (sels : List Selection)
    (schema : Schema) (registry : ReferenceRegistry) :
    Except PyErr ReferenceRegistry :=
  match sels with
  | [] => .ok registry
  | .field f :: rest =>
      if f.name == "__typename" then
        walkTopSelections parent rest schema registry
      else
        match parent.bind GType.fieldMap with
        | none => .error (.attributeError "fields")
        | some tfields =>
            match lookupField tfields f.name with
            | none => .error (.keyError f.name)
            | some ftype =>
                match recurse_find_references f ftype schema registry true with
                | .error e => .error e
                | .ok r => walkTopSelections parent rest schema r
  | _ :: rest => walkTopSelections parent rest schema registry

/-- The `for fragment in fragments.values()` loop
(referencer.py:246-262). -/
def walkFragmentValues (frags : List FragmentDefinitionNode) (schema : Schema)
    (registry : ReferenceRegistry) : Except PyErr ReferenceRegistry :=
  match frags with
  | [] => .ok registry
  | f :: rest =>
      match walkTopSelections (schema.get_type f.typeCondition) f.selectionSet
          schema registry with
      | .error e => .error e
      | .ok r => walkFragmentValues rest schema r

/-- The `for argument in operation.variable_definitions` loop
(referencer.py:268-269). -/
def walkVariableDefinitions (vars : List VariableDefinitionNode)
    (schema : Schema) (registry : ReferenceRegistry) :
    Except PyErr ReferenceRegistry :=
  match vars with
  | [] => .ok registry
  | v :: rest =>
      match recurse_type_annotation v.type schema registry true with
      | .error e => .error e
      | .ok r => walkVariableDefinitions rest schema r

/-- The `for operation in operations.values()` loop
(referencer.py:264-284): root type resolved (possibly `None`), variable
declarations recursed, then the top-level selections walked
(`operation.selection_set` absent → `AttributeError`). -/
def walkOperationValues (ops : List OperationDefinitionNode) (schema : Schema)
    (registry : ReferenceRegistry) : Except PyErr ReferenceRegistry :=
  match ops with
  | [] => .ok registry
  | o :: rest =>
      match walkVariableDefinitions o.variable_definitions schema registry with
      | .error e => .error e
      | .ok r =>
          match o.selectionSet with
          | none => .error (.attributeError "selections")
          | some sels =>
              match walkTopSelections (schema.get_root_type o.operation) sels
                  schema r with
              | .error e => .error e
              | .ok r' => walkOperationValues rest schema r'

/-- `create_reference_registry_from_documents(schema, document)`
(referencer.py:230-286): key the document's definitions by name into two
dicts, then walk every fragment value and every operation value against a
fresh registry. -/
def create_reference_registry_from_documents (schema : Schema)
    (defs : List Definition) : Except PyErr ReferenceRegistry :=
  match walkFragmentValues ((collectFragments defs).map (fun p => p.2)) schema
      ReferenceRegistry.empty with
  | .error e => .error e
  | .ok r =>
      walkOperationValues ((collectOperations defs).map (fun p => p.2)) schema r

/-- A Python `ast.Name` node; the source reads its `.id`. -/
structure PyName where
  id : String

/-- Modelled from the spec: the `ClassRegistry` of `turms/registry.py` is
not part of the sources under verification; the spec treats the styler
(name-casing) subsystem as an external collaborator, so the four styling
maps are abstract string functions.  `defined_fragments` records which
fragments have already been registered at the current point of the
generation run (a fragment defined later in output order is absent). -/
structure ClassRegistry where
  style_query_class : String → String
  style_mutation_class : String → String
  style_subscription_class : String → String
  style_fragment_class : String → String
  defined_fragments : List String

/-- Modelled from the spec: `ClassRegistry.reference_fragment`
(`turms/registry.py`, not under the verified sources) returns a direct
`ast.Name` reference to the fragment's generated class.  Per spec §4.4 a
collapse resolving to a fragment is a symbolic forward reference that
must resolve even when the fragment is defined later in output order, so
the result depends only on the fragment's styled class name, not on
`defined_fragments` or on the `allow_forward` flag. -/
def ClassRegistry.reference_fragment (r : ClassRegistry) (typename : String)
    (parent : String) (allow_forward : Bool) : PyName :=
  ⟨r.style_fragment_class typename⟩

/-- Python `str.capitalize()`: first character upper-cased, the rest
lower-cased (ASCII model). -/
def pyCapitalize (s : String) : String :=
  match s.data with
  | [] => ""
  | c :: rest => String.mk (c.toUpper :: rest.map Char.toLower)

/-- Output-language type expression (spec §3 "Output Type Expression"):
a name reference, `Optional[…]`, or `List[…]` — the shape of the
`ast` expression built by the type-recursion engine. -/
inductive TypeExpr where
  | ref (id : String)
  | optional (e : TypeExpr)
  | listOf (e : TypeExpr)
deriving DecidableEq

/-- Rendering of a type expression to its display string. -/
def renderTypeExpr : TypeExpr → String
  | .ref n => n
  | .optional e => "Optional[" ++ renderTypeExpr e ++ "]"
  | .listOf e => "List[" ++ renderTypeExpr e ++ "]"

/-- The named terminal a type expression ultimately refers to. -/
def TypeExpr.terminalId : TypeExpr → String
  | .ref n => n
  | .optional e => e.terminalId
  | .listOf e => e.terminalId

/-- Modelled from the spec: `recurse_outputtype_annotation`
(`turms/utils.py`, not under the verified sources).  Spec §4.2: unwrap
`NonNull`/`List` one layer per call — nullable by default, non-nullable
immediately under `NonNull`, element nullability reset under `List` — and
rebuild the expression in inverse unwrap order; at the named terminal the
emitted reference is the type's generated name, replaced by
`overwrite_final` when one is supplied (the scalar-to-host-type map is
abstracted into the terminal name). -/
def recurse_outputtype_annotation (graphql_type : GType)
    (overwrite_final : Option String) (optional : Bool) : TypeExpr :=
  match graphql_type with
  | .nonNull inner => recurse_outputtype_annotation inner overwrite_final false
  | .list inner =>
      let e := TypeExpr.listOf
        ( recurse_outputtype_annotation inner overwrite_final true)
      if optional then .optional e else e
  | t =>
      let base := TypeExpr.ref (overwrite_final.getD t.name)
      if optional then .optional base else base

/-- Modelled from the spec: `recurse_outputtype_label` (`turms/utils.py`,
not under the verified sources) — the display-string projection of the
same recursion (spec §4.4: "one yields a type expression, the other a
display string"). -/
def recurse_outputtype_label (graphql_type : GType)
    (overwrite_final : Option String) (optional : Bool) : String :=
  match graphql_type with
  | .nonNull inner => recurse_outputtype_label inner overwrite_final false
  | .list inner =>
      let s := "List[" ++ recurse_outputtype_label inner overwrite_final true ++ "]"
      if optional then "Optional[" ++ s ++ "]" else s
  | t =>
      let base := overwrite_final.getD t.name
      if optional then "Optional[" ++ base ++ "]" else base

/-- `get_operation_class_name(o, registry)` (funcs.py:290-315): style the
operation's name by its kind. -/
def get_operation_class_name (o : OperationDefinitionNode)
    (registry : ClassRegistry) : String :=
  match o.operation with
  | .query => registry.style_query_class o.name
  | .mutation => registry.style_mutation_class o.name
  | .subscription => registry.style_subscription_class o.name

/-- `graphql.utilities.get_operation_root_type`: the schema's root type
for the operation kind, a `GraphQLError` when the schema does not define
it. -/
def get_operation_root_type (schema : Schema) (o : OperationDefinitionNode) :
    Except PyErr GType :=
  match schema.get_root_type o.operation with
  | some t => .ok t
  | none => .error .rootTypeError

/-- `graphql.utilities.type_info.get_field_def(schema, parent_type, node)`
restricted to the surface the source exercises: the `__typename` meta
field resolves to `NonNull(String)`, otherwise the field is looked up in
the parent type's field map (`None` when absent; the `__schema`/`__type`
introspection meta fields of the query root are outside the embedded
surface). -/
def get_field_def (schema : Schema) (parent : GType) (fieldName : String) :
    Option GType :=
  if fieldName == "__typename" then some (.nonNull (.scalar "String"))
  else parent.fieldMap.bind (fun fs => lookupField fs fieldName)

/-- `is_collapsable(o)` (funcs.py:741-743): assert the selection set is
present, then `len(selections) == 1`. -/
def is_collapsable (o : OperationDefinitionNode) : Except PyErr Bool :=
  match o.selectionSet with
  | none =>
      .error (.assertionError "Operation needs to have at least a selection")
  | some sels => .ok (sels.length == 1)

/-- `get_return_type_annotation(o, client_schema, registry, collapse)`
(funcs.py:318-371).  When collapsing: take the first top-level selection,
resolve its field definition against the operation root; with no
sub-selection return the recursed output type; with a sole fragment-spread
child return the output type overwritten by the fragment reference's id;
otherwise synthesize `<OperationClassName><CapitalizedFieldOrAlias>`.
Not collapsing returns `ast.Name(o_name)`.  First selections that are not
fields hit the same implicit `AttributeError`s as the Python source
(`.name` missing on an inline fragment inside `get_field_def`,
`.selection_set` missing on a fragment spread). -/
def get_return_type_annotation (o : OperationDefinitionNode)
    (client_schema : Schema) (registry : ClassRegistry) (collapse : Bool) :
    Except PyErr TypeExpr :=
  let o_name := get_operation_class_name o registry
  match get_operation_root_type client_schema o with
  | .error e => .error e
  | .ok root =>
      if collapse then
        match o.selectionSet with
        | none => .error (.attributeError "selections")
        | some [] => .error (.indexError 0)
        | some (.inlineFragment _ _ :: _) => .error (.attributeError "name")
        | some (.fragmentSpread _ :: _) =>
            .error (.attributeError "selection_set")
        | some (.field f :: _) =>
            match get_field_def client_schema root f.name with
            | none => .error (.attributeError "type")
            | some ftype =>
                match f.selectionSet with
                | none => .ok ( recurse_outputtype_annotation ftype none true)
                | some [Selection.fragmentSpread fragName] =>
                    .ok ( recurse_outputtype_annotation ftype
                      (some ((registry.reference_fragment fragName "" false).id))
                      true)
                | some _ =>
                    let field_name :=
                      match f.aliasName with
                      | none => f.name
                      | some a => a
                    .ok ( recurse_outputtype_annotation ftype
                      (some (o_name ++ pyCapitalize field_name)) true)
      else
        .ok (.ref o_name)

/-- `get_return_type_string(o, client_schema, registry, collapse)`
(funcs.py:374-419): the display-string variant of the return-type
computation.  Note funcs.py:415 synthesizes from
`potential_return_field.name` — the alias is not consulted here. -/
def get_return_type_string (o : OperationDefinitionNode)
    (client_schema : Schema) (registry : ClassRegistry) (collapse : Bool) :
    Except PyErr String :=
  let o_name := get_operation_class_name o registry
  match get_operation_root_type client_schema o with
  | .error e => .error e
  | .ok root =>
      if collapse then
        match o.selectionSet with
        | none => .error (.attributeError "selections")
        | some [] => .error (.indexError 0)
        | some (.inlineFragment _ _ :: _) => .error (.attributeError "name")
        | some (.fragmentSpread _ :: _) =>
            .error (.attributeError "selection_set")
        | some (.field f :: _) =>
            match get_field_def client_schema root f.name with
            | none => .error (.attributeError "type")
            | some ftype =>
                match f.selectionSet with
                | none => .ok ( recurse_outputtype_label ftype none true)
                | some [Selection.fragmentSpread fragName] =>
                    .ok ( recurse_outputtype_label ftype
                      (some ((registry.reference_fragment fragName "" false).id))
                      true)
                | some _ =>
                    .ok ( recurse_outputtype_label ftype
                      (some (o_name ++ pyCapitalize f.name)) true)
      else
        .ok o_name

/-- The `operations` category of a run's outcome (empty for a failed
run, which exposes no registry at all). -/
def resultOperations : Except PyErr ReferenceRegistry → Finset String
  | .ok r => r.operations
  | .error _ => ∅

/-- The last fragment definition carrying a given name, in document
order. -/
def lastFragmentNamed (n : String) : List Definition →
    Option FragmentDefinitionNode
  | [] => none
  | .fragment f :: rest =>
      match lastFragmentNamed n rest with
      | some v => some v
      | none => if f.name == n then some f else none
  | .operation _ :: rest => lastFragmentNamed n rest

/-- The last operation definition carrying a given name, in document
order. -/
def lastOperationNamed (n : String) : List Definition →
    Option OperationDefinitionNode
  | [] => none
  | .operation o :: rest =>
      match lastOperationNamed n rest with
      | some v => some v
      | none => if o.name == n then some o else none
  | .fragment _ :: rest => lastOperationNamed n rest

/-- The walking phase of `create_reference_registry_from_documents`,
taking the two already-built dicts: the run is a function of the dicts
alone. -/
def walkCollectedDefinitions (schema : Schema)
    (frags : List (String × FragmentDefinitionNode))
    (ops : List (String × OperationDefinitionNode)) :
    Except PyErr ReferenceRegistry :=
  match walkFragmentValues (frags.map (fun p => p.2)) schema
      ReferenceRegistry.empty with
  | .error e => .error e
  | .ok r => walkOperationValues (ops.map (fun p => p.2)) schema r

/-- Concrete schema: `Pet` object with a `species` scalar field. -/
def petFields : List (String × GType) := [("species", .scalar "String")]

/-- The `Pet` object type. -/
def petType : GType := .object "Pet" petFields

/-- Query root with a single `pet : Pet` field. -/
def queryRootPet : GType := .object "Query" [("pet", petType)]

/-- Schema exposing `queryRootPet`. -/
def schemaPet : Schema := ⟨[("Pet", petType)], some queryRootPet, none, none⟩

/-- A `ClassRegistry` whose stylers are all the identity and with no
fragment defined yet. -/
def idStyler : ClassRegistry :=
  ⟨fun n => n, fun n => n, fun n => n, fun n => n, []⟩

/-- `query GetPet { pet { ...PetFragment } }`. -/
def opGetPetFragment : OperationDefinitionNode :=
  ⟨"GetPet", .query,
    some [.field (.mk "pet" none (some [.fragmentSpread "PetFragment"]))], []⟩

/-- `query GetPet { pet { species } }`. -/
def opGetPetPlain : OperationDefinitionNode :=
  ⟨"GetPet", .query,
    some [.field (.mk "pet" none (some [.field (.mk "species" none none)]))],
    []⟩

/-- `query GetPet { favorite: pet { species } }` — the sole top-level
field carries an alias. -/
def opGetPetAliased : OperationDefinitionNode :=
  ⟨"GetPet", .query,
    some [.field (.mk "pet" (some "favorite")
      (some [.field (.mk "species" none none)]))],
    []⟩

/-- Schema with `Cat`/`Dog` object types (each with its own custom
scalar field) behind a `CatDog` union. -/
def catDogSchema : Schema :=
  ⟨[("Cat", .object "Cat" [("meow", .scalar "MeowScalar")]),
    ("Dog", .object "Dog" [("bark", .scalar "BarkScalar")])],
   some (.object "Query" [("media", .union "CatDog")]), none, none⟩

/-- `media { ... on Cat { meow } ... on Dog { bark } }` — a union-typed
field selection with two inline fragments of different type
conditions. -/
def unionMediaNode : FieldNode :=
  .mk "media" none
    (some [.inlineFragment (some "Cat") [.field (.mk "meow" none none)],
           .inlineFragment (some "Dog") [.field (.mk "bark" none none)]])

/-- `pet { ... { __typename } }` — a `__typename` field inside an inline
fragment that carries no type condition (legal GraphQL syntax). -/
def typenameInCondlessInline : FieldNode :=
  .mk "pet" none
    (some [.inlineFragment none [.field (.mk "__typename" none none)]])

/-- The same selection with the `__typename` field removed. -/
def condlessInlineOnly : FieldNode :=
  .mk "pet" none (some [.inlineFragment none []])

/-! ## Helper lemmas -/

/-- When an `overwrite_final` name is supplied, the output type expression
terminates in exactly that name, whatever the unwrapped type was. -/
theorem terminalId_recurse_outputtype_overwrite (nm : String) :
    ∀ (t : GType) (opt : Bool),
      ( recurse_outputtype_annotation t (some nm) opt).terminalId = nm
  | .scalar _, opt => by cases opt <;> rfl
  | .enum _, opt => by cases opt <;> rfl
  | .object _ _, opt => by cases opt <;> rfl
  | .interface _ _, opt => by cases opt <;> rfl
  | .union _, opt => by cases opt <;> rfl
  | .inputObject _ _, opt => by cases opt <;> rfl
  | .nonNull inner, _ => terminalId_recurse_outputtype_overwrite nm inner false
  | .list inner, opt => by
      cases opt <;>
        simp [ recurse_outputtype_annotation, TypeExpr.terminalId,
          terminalId_recurse_outputtype_overwrite nm inner true]

/-- Looking a key up after a Python-style dict assignment: the assigned
key now maps to the new value, every other key is unchanged. -/
theorem dictLookup_dictInsert {α : Type} (d : List (String × α))
    (k k' : String) (v : α) :
    dictLookup (dictInsert d k v) k'
      = if k == k' then some v else dictLookup d k' := by
  induction d with
  | nil => rfl
  | cons p rest ih =>
      obtain ⟨pk, pv⟩ := p
      by_cases h1 : pk = k
      · subst h1
        by_cases h2 : pk = k'
        · subst h2; simp [dictInsert, dictLookup]
        · simp [dictInsert, dictLookup, h2]
      · by_cases h2 : pk = k'
        · subst h2
          have hk : ¬(k = pk) := fun h => h1 h.symm
          simp [dictInsert, dictLookup, h1, hk]
        · simp [dictInsert, dictLookup, h1, h2, ih]

/-- After the fragment-collection loop, each name maps to the *last*
fragment definition with that name in document order. -/
theorem collectFragmentsFrom_lookup (n : String) :
    ∀ (defs : List Definition) (acc : List (String × FragmentDefinitionNode)),
      dictLookup (collectFragmentsFrom acc defs) n
        = (match lastFragmentNamed n defs with
          | some v => some v
          | none => dictLookup acc n)
  | [], _ => rfl
  | .fragment f :: rest, acc => by
      have h := collectFragmentsFrom_lookup n rest (dictInsert acc f.name f)
      simp only [collectFragmentsFrom, lastFragmentNamed, h,
        dictLookup_dictInsert]
      cases lastFragmentNamed n rest with
      | some v => rfl
      | none => by_cases hn : f.name = n <;> simp [hn]
  | .operation _ :: rest, acc => by
      simpa [collectFragmentsFrom, lastFragmentNamed] using
        collectFragmentsFrom_lookup n rest acc

/-- After the operation-collection loop, each name maps to the *last*
operation definition with that name in document order. -/
theorem collectOperationsFrom_lookup (n : String) :
    ∀ (defs : List Definition) (acc : List (String × OperationDefinitionNode)),
      dictLookup (collectOperationsFrom acc defs) n
        = (match lastOperationNamed n defs with
          | some v => some v
          | none => dictLookup acc n)
  | [], _ => rfl
  | .operation o :: rest, acc => by
      have h := collectOperationsFrom_lookup n rest (dictInsert acc o.name o)
      simp only [collectOperationsFrom, lastOperationNamed, h,
        dictLookup_dictInsert]
      cases lastOperationNamed n rest with
      | some v => rfl
      | none => by_cases hn : o.name = n <;> simp [hn]
  | .fragment _ :: rest, acc => by
      simpa [collectOperationsFrom, lastOperationNamed] using
        collectOperationsFrom_lookup n rest acc

/-- No step of the reference walk touches the `operations` category: a
successful call of any of the five mutually recursive walkers returns a
registry whose `operations` set equals that of the input registry.
Proved by strong induction on the same lexicographic measure that
justifies the recursion. -/
theorem findRefs_operations_invariant :
    ∀ n : ℕ,
      (∀ (node : FieldNode) (g : GType) (s : Schema)
          (reg r : ReferenceRegistry) (ib : Bool), sizeOf node ≤ n →
          recurse_find_references node g s reg ib = .ok r →
          r.operations = reg.operations)
    ∧ (∀ (sels : List Selection) (s : Schema) (reg r : ReferenceRegistry),
          sizeOf sels ≤ n →
          findRefsUnionSelections sels s reg = .ok r →
          r.operations = reg.operations)
    ∧ (∀ (cond : Option String) (isels : List Selection) (s : Schema)
          (reg : ReferenceRegistry)
          (x : ReferenceRegistry ⊕ ReferenceRegistry),
          sizeOf isels ≤ n →
          findRefsUnionInline cond isels s reg = .ok x →
          (∀ r, x = .inl r → r.operations = reg.operations)
          ∧ (∀ r, x = .inr r → r.operations = reg.operations))
    ∧ (∀ (tf : List (String × GType)) (sels : List Selection) (s : Schema)
          (reg r : ReferenceRegistry), sizeOf sels ≤ n →
          findRefsCompositeSelections tf sels s reg = .ok r →
          r.operations = reg.operations)
    ∧ (∀ (cond : Option String) (isels : List Selection) (s : Schema)
          (reg r : ReferenceRegistry), sizeOf isels ≤ n →
          findRefsCompositeInline cond isels s reg = .ok r →
          r.operations = reg.operations) := by
  intro n
  induction n using Nat.strong_induction_on with
  | _ n ih =>
  have hrfr : ∀ (node : FieldNode) (g : GType) (s : Schema)
      (reg r : ReferenceRegistry) (ib : Bool), sizeOf node ≤ n →
      recurse_find_references node g s reg ib = .ok r →
      r.operations = reg.operations := by
    intro node g
    have main : ∀ (m : ℕ) (g : GType), sizeOf g ≤ m →
        ∀ (s : Schema) (reg r : ReferenceRegistry) (ib : Bool),
        sizeOf node ≤ n →
        recurse_find_references node g s reg ib = .ok r →
        r.operations = reg.operations := by
      intro m
      induction m using Nat.strong_induction_on with
      | _ m ihm =>
      intro g hg s reg r ib hn heq
      cases node with
      | mk nodeName nodeAlias ss =>
      cases g with
      | union un =>
          cases ss with
          | none => simp [recurse_find_references] at heq
          | some sels =>
              have hs : sizeOf sels < n := by
                have hb := hn; simp at hb; omega
              simp only [recurse_find_references] at heq
              exact (ih (sizeOf sels) hs).2.1 sels s reg r le_rfl heq
      | interface iname ifields =>
          cases ss with
          | none => simp [recurse_find_references] at heq
          | some sels =>
              have hs : sizeOf sels < n := by
                have hb := hn; simp at hb; omega
              simp only [recurse_find_references] at heq
              exact (ih (sizeOf sels) hs).2.2.2.1 ifields sels s reg r le_rfl heq
      | object oname ofields =>
          cases ss with
          | none => simp [recurse_find_references] at heq
          | some sels =>
              have hs : sizeOf sels < n := by
                have hb := hn; simp at hb; omega
              simp only [recurse_find_references] at heq
              exact (ih (sizeOf sels) hs).2.2.2.1 ofields sels s reg r le_rfl heq
      | scalar sn =>
          simp [recurse_find_references] at heq
          simp [← heq, ReferenceRegistry.register_scalar]
      | enum en =>
          simp [recurse_find_references] at heq
          simp [← heq, ReferenceRegistry.register_enum]
      | inputObject ioname iofields =>
          simp [recurse_find_references] at heq
      | nonNull inner =>
          simp only [recurse_find_references] at heq
          have hlt : sizeOf inner < m := by
            have hb := hg; simp at hb; omega
          exact ihm (sizeOf inner) hlt inner le_rfl s reg r false hn heq
      | list inner =>
          simp only [recurse_find_references] at heq
          have hlt : sizeOf inner < m := by
            have hb := hg; simp at hb; omega
          exact ihm (sizeOf inner) hlt inner le_rfl s reg r false hn heq
    exact main (sizeOf g) g le_rfl
  refine ⟨hrfr, ?_, ?_, ?_, ?_⟩
  · intro sels s reg r hsz heq
    match sels, hsz, heq with
    | [], hsz, heq =>
        simp [findRefsUnionSelections] at heq
        simp [← heq]
    | .field f :: rest, hsz, heq =>
        have hrest : sizeOf rest < n := by
          have hb := hsz; simp at hb; omega
        simp only [findRefsUnionSelections] at heq
        exact (ih (sizeOf rest) hrest).2.1 rest s reg r le_rfl heq
    | .fragmentSpread nm :: rest, hsz, heq =>
        have hrest : sizeOf rest < n := by
          have hb := hsz; simp at hb; omega
        simp only [findRefsUnionSelections] at heq
        have h2 := (ih (sizeOf rest) hrest).2.1 rest s
          (reg.register_fragment nm) r le_rfl heq
        simpa [ReferenceRegistry.register_fragment] using h2
    | .inlineFragment cond isels :: rest, hsz, heq =>
        have hisels : sizeOf isels < n := by
          have hb := hsz; simp at hb; omega
        have hrest : sizeOf rest < n := by
          have hb := hsz; simp at hb; omega
        cases hin : findRefsUnionInline cond isels s reg with
        | error e => simp [findRefsUnionSelections, hin] at heq
        | ok x =>
            have hx := (ih (sizeOf isels) hisels).2.2.1 cond isels s reg x
              le_rfl hin
            cases x with
            | inl r2 =>
                simp only [findRefsUnionSelections, hin] at heq
                have h2 := (ih (sizeOf rest) hrest).2.1 rest s r2 r le_rfl heq
                rw [h2, hx.1 r2 rfl]
            | inr r2 =>
                simp only [findRefsUnionSelections, hin,
                  Except.ok.injEq] at heq
                rw [← heq]
                exact hx.2 r2 rfl
  · intro cond isels s reg x hsz heq
    match isels, hsz, heq with
    | [], hsz, heq =>
        simp [findRefsUnionInline] at heq
        refine ⟨?_, ?_⟩
        · intro r hr; rw [← heq] at hr; cases hr; rfl
        · intro r hr; rw [← heq] at hr; cases hr
    | .field f :: rest, hsz, heq =>
        have hf : sizeOf f < n := by
          have hb := hsz; simp at hb; omega
        have hrest : sizeOf rest < n := by
          have hb := hsz; simp at hb; omega
        cases cond with
        | none => simp [findRefsUnionInline] at heq
        | some c =>
            cases htn : (f.name == "__typename") with
            | true =>
                simp only [findRefsUnionInline, htn, if_true] at heq
                exact (ih (sizeOf rest) hrest).2.2.1 (some c) rest s reg x
                  le_rfl heq
            | false =>
                cases hft : (s.get_type c).bind GType.fieldMap with
                | none => simp [findRefsUnionInline, htn, hft] at heq
                | some tfields =>
                    cases hlk : lookupField tfields f.name with
                    | none => simp [findRefsUnionInline, htn, hft, hlk] at heq
                    | some ftype =>
                        cases hrec : recurse_find_references f ftype s reg
                            true with
                        | error e =>
                            simp [findRefsUnionInline, htn, hft, hlk,
                              hrec] at heq
                        | ok r2 =>
                            simp only [findRefsUnionInline, htn, hft, hlk,
                              hrec, Bool.false_eq_true, if_false,
                              Except.ok.injEq] at heq
                            have h2 := hrfr f ftype s reg r2 true
                              (le_of_lt hf) hrec
                            subst heq
                            refine ⟨?_, ?_⟩
                            · intro r hr; cases hr
                            · intro r hr; cases hr; exact h2
    | .fragmentSpread nm :: rest, hsz, heq =>
        have hrest : sizeOf rest < n := by
          have hb := hsz; simp at hb; omega
        simp only [findRefsUnionInline] at heq
        exact (ih (sizeOf rest) hrest).2.2.1 cond rest s reg x le_rfl heq
    | .inlineFragment c2 isels2 :: rest, hsz, heq =>
        have hrest : sizeOf rest < n := by
          have hb := hsz; simp at hb; omega
        simp only [findRefsUnionInline] at heq
        exact (ih (sizeOf rest) hrest).2.2.1 cond rest s reg x le_rfl heq
  · intro tf sels s reg r hsz heq
    match sels, hsz, heq with
    | [], hsz, heq =>
        simp [findRefsCompositeSelections] at heq
        simp [← heq]
    | .field f :: rest, hsz, heq =>
        have hf : sizeOf f < n := by
          have hb := hsz; simp at hb; omega
        have hrest : sizeOf rest < n := by
          have hb := hsz; simp at hb; omega
        cases htn : (f.name == "__typename") with
        | true =>
            simp only [findRefsCompositeSelections, htn, if_true] at heq
            exact (ih (sizeOf rest) hrest).2.2.2.1 tf rest s reg r le_rfl heq
        | false =>
            cases hlk : lookupField tf f.name with
            | none => simp [findRefsCompositeSelections, htn, hlk] at heq
            | some ftype =>
                cases hrec : recurse_find_references f ftype s reg true with
                | error e =>
                    simp [findRefsCompositeSelections, htn, hlk, hrec] at heq
                | ok r2 =>
                    simp only [findRefsCompositeSelections, htn, hlk, hrec,
                      Bool.false_eq_true, if_false] at heq
                    have h1 := hrfr f ftype s reg r2 true (le_of_lt hf) hrec
                    have h2 := (ih (sizeOf rest) hrest).2.2.2.1 tf rest s r2 r
                      le_rfl heq
                    rw [h2, h1]
    | .fragmentSpread nm :: rest, hsz, heq =>
        have hrest : sizeOf rest < n := by
          have hb := hsz; simp at hb; omega
        simp only [findRefsCompositeSelections] at heq
        have h2 := (ih (sizeOf rest) hrest).2.2.2.1 tf rest s
          (reg.register_fragment nm) r le_rfl heq
        simpa [ReferenceRegistry.register_fragment] using h2
    | .inlineFragment cond isels :: rest, hsz, heq =>
        have hisels : sizeOf isels < n := by
          have hb := hsz; simp at hb; omega
        have hrest : sizeOf rest < n := by
          have hb := hsz; simp at hb; omega
        cases hin : findRefsCompositeInline cond isels s reg with
        | error e => simp [findRefsCompositeSelections, hin] at heq
        | ok r2 =>
            simp only [findRefsCompositeSelections, hin] at heq
            have h1 := (ih (sizeOf isels) hisels).2.2.2.2 cond isels s reg r2
              le_rfl hin
            have h2 := (ih (sizeOf rest) hrest).2.2.2.1 tf rest s r2 r
              le_rfl heq
            rw [h2, h1]
  · intro cond isels s reg r hsz heq
    match isels, hsz, heq with
    | [], hsz, heq =>
        simp [findRefsCompositeInline] at heq
        simp [← heq]
    | .field f :: rest, hsz, heq =>
        have hf : sizeOf f < n := by
          have hb := hsz; simp at hb; omega
        have hrest : sizeOf rest < n := by
          have hb := hsz; simp at hb; omega
        cases cond with
        | none => simp [findRefsCompositeInline] at heq
        | some c =>
            cases htn : (f.name == "__typename") with
            | true =>
                simp only [findRefsCompositeInline, htn, if_true] at heq
                exact (ih (sizeOf rest) hrest).2.2.2.2 (some c) rest s reg r
                  le_rfl heq
            | false =>
                cases hft : (s.get_type c).bind GType.fieldMap with
                | none => simp [findRefsCompositeInline, htn, hft] at heq
                | some tfields =>
                    cases hlk : lookupField tfields f.name with
                    | none =>
                        simp [findRefsCompositeInline, htn, hft, hlk] at heq
                    | some ftype =>
                        cases hrec : recurse_find_references f ftype s reg
                            true with
                        | error e =>
                            simp [findRefsCompositeInline, htn, hft, hlk,
                              hrec] at heq
                        | ok r2 =>
                            simp only [findRefsCompositeInline, htn, hft, hlk,
                              hrec, Bool.false_eq_true, if_false] at heq
                            have h1 := hrfr f ftype s reg r2 true
                              (le_of_lt hf) hrec
                            have h2 := (ih (sizeOf rest) hrest).2.2.2.2
                              (some c) rest s r2 r le_rfl heq
                            rw [h2, h1]
    | .fragmentSpread nm :: rest, hsz, heq =>
        have hrest : sizeOf rest < n := by
          have hb := hsz; simp at hb; omega
        simp only [findRefsCompositeInline] at heq
        exact (ih (sizeOf rest) hrest).2.2.2.2 cond rest s reg r le_rfl heq
    | .inlineFragment c2 isels2 :: rest, hsz, heq =>
        have hrest : sizeOf rest < n := by
          have hb := hsz; simp at hb; omega
        simp only [findRefsCompositeInline] at heq
        exact (ih (sizeOf rest) hrest).2.2.2.2 cond rest s reg r le_rfl heq

/-- Corollary of the invariant for a single walker call. -/
theorem recurse_find_references_operations (node : FieldNode) (g : GType)
    (s : Schema) (reg r : ReferenceRegistry) (ib : Bool)
    (h : recurse_find_references node g s reg ib = .ok r) :
    r.operations = reg.operations :=
  (findRefs_operations_invariant (sizeOf node)).1 node g s reg r ib le_rfl h

/-- `recurse_type_annotation` never touches the `operations` category. -/
theorem recurse_type_annotation_operations :
    ∀ (t : TypeNode) (s : Schema) (reg r : ReferenceRegistry) (opt : Bool),
      recurse_type_annotation t s reg opt = .ok r →
      r.operations = reg.operations
  | .nonNull inner, s, reg, r, _, h =>
      recurse_type_annotation_operations inner s reg r false h
  | .list inner, s, reg, r, _, h =>
      recurse_type_annotation_operations inner s reg r true h
  | .named n, s, reg, r, opt, h => by
      simp only [ recurse_type_annotation] at h
      cases hz : s.get_type n with
      | none => rw [hz] at h; simp at h
      | some z =>
          rw [hz] at h
          cases z <;> simp at h <;>
            simp [← h, ReferenceRegistry.register_scalar,
              ReferenceRegistry.register_input, ReferenceRegistry.register_enum]

/-- The top-level selection loop never touches `operations`. -/
theorem walkTopSelections_operations :
    ∀ (parent : Option GType) (sels : List Selection) (s : Schema)
      (reg r : ReferenceRegistry),
      walkTopSelections parent sels s reg = .ok r →
      r.operations = reg.operations
  | _, [], _, reg, r, h => by
      simp [walkTopSelections] at h; simp [← h]
  | parent, .field f :: rest, s, reg, r, h => by
      cases htn : (f.name == "__typename") with
      | true =>
          simp only [walkTopSelections, htn, if_true] at h
          exact walkTopSelections_operations parent rest s reg r h
      | false =>
          cases hft : parent.bind GType.fieldMap with
          | none => simp [walkTopSelections, htn, hft] at h
          | some tfields =>
              cases hlk : lookupField tfields f.name with
              | none => simp [walkTopSelections, htn, hft, hlk] at h
              | some ftype =>
                  cases hrec : recurse_find_references f ftype s reg true with
                  | error e =>
                      simp [walkTopSelections, htn, hft, hlk, hrec] at h
                  | ok r2 =>
                      simp only [walkTopSelections, htn, hft, hlk, hrec,
                        Bool.false_eq_true, if_false] at h
                      have h1 := recurse_find_references_operations f ftype s
                        reg r2 true hrec
                      have h2 := walkTopSelections_operations parent rest s r2
                        r h
                      rw [h2, h1]
  | parent, .fragmentSpread nm :: rest, s, reg, r, h => by
      simp only [walkTopSelections] at h
      exact walkTopSelections_operations parent rest s reg r h
  | parent, .inlineFragment c isels :: rest, s, reg, r, h => by
      simp only [walkTopSelections] at h
      exact walkTopSelections_operations parent rest s reg r h

/-- The fragment-values loop never touches `operations`. -/
theorem walkFragmentValues_operations :
    ∀ (frags : List FragmentDefinitionNode) (s : Schema)
      (reg r : ReferenceRegistry),
      walkFragmentValues frags s reg = .ok r → r.operations = reg.operations
  | [], _, reg, r, h => by simp [walkFragmentValues] at h; simp [← h]
  | f :: rest, s, reg, r, h => by
      cases hw : walkTopSelections (s.get_type f.typeCondition) f.selectionSet
          s reg with
      | error e => simp [walkFragmentValues, hw] at h
      | ok r2 =>
          simp only [walkFragmentValues, hw] at h
          have h1 := walkTopSelections_operations _ _ _ _ _ hw
          have h2 := walkFragmentValues_operations rest s r2 r h
          rw [h2, h1]

/-- The variable-definitions loop never touches `operations`. -/
theorem walkVariableDefinitions_operations :
    ∀ (vars : List VariableDefinitionNode) (s : Schema)
      (reg r : ReferenceRegistry),
      walkVariableDefinitions vars s reg = .ok r →
      r.operations = reg.operations
  | [], _, reg, r, h => by simp [walkVariableDefinitions] at h; simp [← h]
  | v :: rest, s, reg, r, h => by
      cases hw : recurse_type_annotation v.type s reg true with
      | error e => simp [walkVariableDefinitions, hw] at h
      | ok r2 =>
          simp only [walkVariableDefinitions, hw] at h
          have h1 := recurse_type_annotation_operations v.type s reg r2 true hw
          have h2 := walkVariableDefinitions_operations rest s r2 r h
          rw [h2, h1]

/-- The operation-values loop never touches `operations`. -/
theorem walkOperationValues_operations :
    ∀ (ops : List OperationDefinitionNode) (s : Schema)
      (reg r : ReferenceRegistry),
      walkOperationValues ops s reg = .ok r → r.operations = reg.operations
  | [], _, reg, r, h => by simp [walkOperationValues] at h; simp [← h]
  | o :: rest, s, reg, r, h => by
      cases hv : walkVariableDefinitions o.variable_definitions s reg with
      | error e => simp [walkOperationValues, hv] at h
      | ok r2 =>
          have h1 := walkVariableDefinitions_operations _ _ _ _ hv
          cases hss : o.selectionSet with
          | none => simp [walkOperationValues, hv, hss] at h
          | some sels =>
              cases hw : walkTopSelections (s.get_root_type o.operation) sels
                  s r2 with
              | error e => simp [walkOperationValues, hv, hss, hw] at h
              | ok r3 =>
                  simp only [walkOperationValues, hv, hss, hw] at h
                  have h2 := walkTopSelections_operations _ _ _ _ _ hw
                  have h3 := walkOperationValues_operations rest s r3 r h
                  rw [h3, h2, h1]

/-! ## Claims -/

/-- Claim C7: every `register_*` method of the reference registry is
idempotent (adding a name twice equals adding it once, a one-element set
when starting from empty), always succeeds (it is a total function), and
the resulting sets are independent of insertion order. -/
theorem register_methods_idempotent_commutative
    (r : ReferenceRegistry) (n m : String) :
    ((r.register_type n).register_type n = r.register_type n
      ∧ (r.register_fragment n).register_fragment n = r.register_fragment n
      ∧ (r.register_enum n).register_enum n = r.register_enum n
      ∧ (r.register_input n).register_input n = r.register_input n
      ∧ (r.register_scalar n).register_scalar n = r.register_scalar n)
  ∧ ((r.register_type n).register_type m = (r.register_type m).register_type n
      ∧ (r.register_fragment n).register_fragment m
          = (r.register_fragment m).register_fragment n
      ∧ (r.register_enum n).register_enum m = (r.register_enum m).register_enum n
      ∧ (r.register_input n).register_input m
          = (r.register_input m).register_input n
      ∧ (r.register_scalar n).register_scalar m
          = (r.register_scalar m).register_scalar n)
  ∧ ((ReferenceRegistry.empty.register_type n).objects.card = 1
      ∧ (ReferenceRegistry.empty.register_fragment n).fragments.card = 1
      ∧ (ReferenceRegistry.empty.register_enum n).enums.card = 1
      ∧ (ReferenceRegistry.empty.register_input n).inputs.card = 1
      ∧ (ReferenceRegistry.empty.register_scalar n).scalars.card = 1) := by
  refine ⟨⟨?_, ?_, ?_, ?_, ?_⟩, ⟨?_, ?_, ?_, ?_, ?_⟩, ⟨?_, ?_, ?_, ?_, ?_⟩⟩ <;>
    simp [ReferenceRegistry.register_type, ReferenceRegistry.register_fragment,
      ReferenceRegistry.register_enum, ReferenceRegistry.register_input,
      ReferenceRegistry.register_scalar, ReferenceRegistry.empty,
      Finset.Insert.comm]

/-- Claim C4 (counterexample): an operation whose selection set is
*present but empty* has selection count 0, yet `is_collapsable` returns
`False` instead of failing the assertion-style precondition — the
precondition fires only when the selection set is absent. -/
theorem is_collapsable_empty_selections_counterexample :
    is_collapsable ⟨"GetPet", .query, some [], []⟩ = .ok false := rfl

/-- Claim C4 (amended): `is_collapsable` fails with the assertion-style
precondition error exactly when the selection set is absent; on a present
selection set it returns whether the selection count equals 1 — count 0
(present but empty) returns false rather than failing, count 1 returns
true, count 2+ returns false. -/
theorem is_collapsable_spec (name : String) (ot : OperationType)
    (vars : List VariableDefinitionNode) (sels : List Selection)
    (s1 s2 : Selection) (more : List Selection) :
    is_collapsable ⟨name, ot, none, vars⟩
      = .error (.assertionError "Operation needs to have at least a selection")
  ∧ is_collapsable ⟨name, ot, some sels, vars⟩ = .ok (sels.length == 1)
  ∧ is_collapsable ⟨name, ot, some [], vars⟩ = .ok false
  ∧ is_collapsable ⟨name, ot, some [s1], vars⟩ = .ok true
  ∧ is_collapsable ⟨name, ot, some (s1 :: s2 :: more), vars⟩ = .ok false := by
  refine ⟨rfl, rfl, rfl, rfl, ?_⟩
  simp [is_collapsable]

/-- Claim C6: `recurse_type_annotation` unwraps `NonNull` and `List`
wrappers one layer per recursive call; at the terminal named node it
registers the resolved type as scalar, input, or enum according to its
kind, and any other resolution fails with the Unknown-Subtype error
carrying the offending named node, the failure propagating unchanged
through the wrapper layers to the caller. -/
theorem recurse_type_annotation_spec (t : TypeNode) (schema : Schema)
    (reg : ReferenceRegistry) (opt : Bool) :
    recurse_type_annotation (.nonNull t) schema reg opt
      = recurse_type_annotation t schema reg false
  ∧ recurse_type_annotation (.list t) schema reg opt
      = recurse_type_annotation t schema reg true
  ∧ recurse_type_annotation t schema reg opt
      = (match schema.get_type t.terminalName with
        | some (.scalar zn) => .ok (reg.register_scalar zn)
        | some (.inputObject zn _) => .ok (reg.register_input zn)
        | some (.enum zn) => .ok (reg.register_enum zn)
        | _ => .error (.unknownSubtype (.named t.terminalName))) := by
  refine ⟨rfl, rfl, ?_⟩
  induction t generalizing opt with
  | named n => rfl
  | list inner ih => exact ih true
  | nonNull inner ih => exact ih false

/-- Claim C5 (code evaluated at the failing input): for a collapsing
operation whose sole top-level field has plain nested sub-fields, the
annotation computation synthesizes `<StyledOperationName><Capitalized
alias-or-name>` (`GetPet`/`pet`/`species` gives `GetPetPet`), but the
display-string computation ignores the alias: with alias `favorite` the
annotation refers to `GetPetFavorite` while the string still reads
`GetPetPet`. -/
theorem synthesized_return_type_name_alias :
    get_return_type_annotation opGetPetPlain schemaPet idStyler true
      = .ok (.optional (.ref "GetPetPet"))
  ∧ get_return_type_string opGetPetPlain schemaPet idStyler true
      = .ok "Optional[GetPetPet]"
  ∧ get_return_type_annotation opGetPetAliased schemaPet idStyler true
      = .ok (.optional (.ref "GetPetFavorite"))
  ∧ get_return_type_string opGetPetAliased schemaPet idStyler true
      = .ok "Optional[GetPetPet]" := by
  refine ⟨rfl, rfl, rfl, rfl⟩

/-- Claim C3 (code evaluated at the failing input): the return-type
annotation and the return-type display string disagree on an operation
whose collapsed sole top-level field carries an alias — the annotation
uses the alias (`GetPetFavorite`), the string uses the field name
(`GetPetPet`). -/
theorem return_type_annotation_string_divergence :
    get_return_type_annotation opGetPetAliased schemaPet idStyler true
      = .ok (.optional (.ref "GetPetFavorite"))
  ∧ get_return_type_string opGetPetAliased schemaPet idStyler true
      = .ok "Optional[GetPetPet]"
  ∧ renderTypeExpr (.optional (.ref "GetPetFavorite"))
      ≠ "Optional[GetPetPet]" := by
  refine ⟨rfl, rfl, by decide⟩

/-- Claim C2: with collapse enabled, when the sole top-level field's sole
child is a fragment spread, both the annotation and the string variants
resolve the return type by overwriting the final name with the fragment's
own generated class name (a direct reference, not a synthesized wrapper),
and the resolution does not consult which fragments are already defined —
so it succeeds even when the fragment's definition comes later in the
document set. -/
theorem collapse_fragment_spread_forward_reference
    (o : OperationDefinitionNode) (schema : Schema) (registry : ClassRegistry)
    (f : FieldNode) (fragName : String) (root ftype : GType)
    (h1 : o.selectionSet = some [.field f])
    (h2 : f.selectionSet = some [.fragmentSpread fragName])
    (h3 : get_operation_root_type schema o = .ok root)
    (h4 : get_field_def schema root f.name = some ftype)
    (h5 : fragName ∉ registry.defined_fragments) :
    get_return_type_annotation o schema registry true
      = .ok ( recurse_outputtype_annotation ftype
          (some (registry.style_fragment_class fragName)) true)
  ∧ ( recurse_outputtype_annotation ftype
        (some (registry.style_fragment_class fragName)) true).terminalId
      = registry.style_fragment_class fragName
  ∧ get_return_type_string o schema registry true
      = .ok ( recurse_outputtype_label ftype
          (some (registry.style_fragment_class fragName)) true) := by
  refine ⟨?_, terminalId_recurse_outputtype_overwrite _ ftype true, ?_⟩ <;>
    simp [ get_return_type_annotation, get_return_type_string, h1, h2, h3, h4,
      ClassRegistry.reference_fragment]

/-- Witness for claim C2 at `query GetPet { pet { ...PetFragment } }`
against `schemaPet` with identity stylers and no fragment defined yet. -/
theorem collapse_fragment_spread_forward_reference_witness :
    get_return_type_annotation opGetPetFragment schemaPet idStyler true
      = .ok ( recurse_outputtype_annotation petType (some "PetFragment") true)
  ∧ ( recurse_outputtype_annotation petType
        (some "PetFragment") true).terminalId = "PetFragment"
  ∧ get_return_type_string opGetPetFragment schemaPet idStyler true
      = .ok ( recurse_outputtype_label petType (some "PetFragment") true) := by
  have h := collapse_fragment_spread_forward_reference opGetPetFragment
    schemaPet idStyler (.mk "pet" none (some [.fragmentSpread "PetFragment"]))
    "PetFragment" queryRootPet petType rfl rfl rfl rfl (by simp [idStyler])
  simpa [idStyler] using h

/-- Claim C1 (code evaluated at the failing input): on the union-typed
selection `media { ... on Cat { meow } ... on Dog { bark } }` the walker
returns after the first field of the first inline fragment, so the
resulting registry holds only `MeowScalar` — `BarkScalar`, reachable from
the second inline fragment, is never registered. -/
theorem union_two_inline_fragments_registry :
    recurse_find_references unionMediaNode (.union "CatDog") catDogSchema
      ReferenceRegistry.empty true = .ok ⟨∅, ∅, ∅, ∅, {"MeowScalar"}, ∅⟩ := by
  simp [recurse_find_references, findRefsUnionSelections, findRefsUnionInline,
    unionMediaNode, catDogSchema, Schema.get_type, GType.fieldMap, lookupField,
    FieldNode.name, ReferenceRegistry.register_scalar, ReferenceRegistry.empty,
    List.find?]

/-- Claim C8 (counterexample): a `__typename` field inside an inline
fragment that has no type condition is *not* skipped as a no-op — the
walker dereferences the missing type condition before the skip and fails
with an attribute error, while the same selection without the
`__typename` field succeeds. -/
theorem typename_condless_inline_counterexample :
    recurse_find_references typenameInCondlessInline petType schemaPet
      ReferenceRegistry.empty true = .error (.attributeError "name")
  ∧ recurse_find_references condlessInlineOnly petType schemaPet
      ReferenceRegistry.empty true = .ok ReferenceRegistry.empty := by
  constructor <;>
    simp [recurse_find_references, findRefsCompositeSelections,
      findRefsCompositeInline, typenameInCondlessInline, condlessInlineOnly,
      petType, petFields]

/-- Claim C8 (amended): at every point where the reference walk inspects
a field of a selection set — the top-level document loops, the
interface/object field loop, and the union/interface/object inline
fragment loops with a present type condition — a field named
`__typename` is skipped as a no-op: it adds no registry entry and raises
nothing (in particular no Unknown-Type error).  On a union, plain field
selections are ignored wholesale.  The one exception, forced by the
counterexample, is a `__typename` inside a condition-less inline
fragment, where the missing condition is dereferenced first. -/
theorem typename_skip_equations (c : String) (a : Option String)
    (ss : Option (List Selection)) (rest : List Selection)
    (tf : List (String × GType)) (parent : Option GType) (f : FieldNode)
    (schema : Schema) (reg : ReferenceRegistry) :
    walkTopSelections parent (.field (.mk "__typename" a ss) :: rest) schema reg
      = walkTopSelections parent rest schema reg
  ∧ findRefsCompositeSelections tf (.field (.mk "__typename" a ss) :: rest)
        schema reg
      = findRefsCompositeSelections tf rest schema reg
  ∧ findRefsCompositeInline (some c) (.field (.mk "__typename" a ss) :: rest)
        schema reg
      = findRefsCompositeInline (some c) rest schema reg
  ∧ findRefsUnionInline (some c) (.field (.mk "__typename" a ss) :: rest)
        schema reg
      = findRefsUnionInline (some c) rest schema reg
  ∧ findRefsUnionSelections (.field f :: rest) schema reg
      = findRefsUnionSelections rest schema reg := by
  refine ⟨?_, ?_, ?_, ?_, ?_⟩ <;>
    simp [walkTopSelections, findRefsCompositeSelections,
      findRefsCompositeInline, findRefsUnionInline, findRefsUnionSelections,
      FieldNode.name]

/-- Claim C9: the registry built by
`create_reference_registry_from_documents` always has an empty
`operations` set — no registration method and no step of the
reference-collection run ever adds a name to it, although the field is
declared on the registry. -/
theorem operations_reference_set_never_populated (schema : Schema)
    (defs : List Definition) (reg0 : ReferenceRegistry) (n : String) :
    resultOperations (create_reference_registry_from_documents schema defs) = ∅
  ∧ (reg0.register_type n).operations = reg0.operations
  ∧ (reg0.register_fragment n).operations = reg0.operations
  ∧ (reg0.register_enum n).operations = reg0.operations
  ∧ (reg0.register_input n).operations = reg0.operations
  ∧ (reg0.register_scalar n).operations = reg0.operations := by
  refine ⟨?_, rfl, rfl, rfl, rfl, rfl⟩
  cases hf : walkFragmentValues ((collectFragments defs).map (fun p => p.2))
      schema ReferenceRegistry.empty with
  | error e =>
      simp [create_reference_registry_from_documents, hf, resultOperations]
  | ok r =>
      have h1 := walkFragmentValues_operations _ _ _ _ hf
      cases ho : walkOperationValues
          ((collectOperations defs).map (fun p => p.2)) schema r with
      | error e =>
          simp [create_reference_registry_from_documents, hf, ho,
            resultOperations]
      | ok r2 =>
          have h2 := walkOperationValues_operations _ _ _ _ ho
          simp only [create_reference_registry_from_documents, hf, ho,
            resultOperations, h2, h1]
          rfl

/-- Claim C10: the document's definitions are keyed by name into dicts,
so each name maps to the *last* same-named definition in document order:
the registry run is a function of the two dicts alone, and a document
with two same-named operation (or fragment) definitions produces exactly
the registry of the document holding only the later one — references
reachable only from the earlier definition never enter the registry. -/
theorem duplicate_definitions_last_wins (schema : Schema)
    (defs : List Definition) (n nm tc1 tc2 : String)
    (ot1 ot2 : OperationType) (ss1 ss2 : Option (List Selection))
    (v1 v2 : List VariableDefinitionNode) (fs1 fs2 : List Selection) :
    dictLookup (collectFragments defs) n = lastFragmentNamed n defs
  ∧ dictLookup (collectOperations defs) n = lastOperationNamed n defs
  ∧ create_reference_registry_from_documents schema defs
      = walkCollectedDefinitions schema (collectFragments defs)
          (collectOperations defs)
  ∧ create_reference_registry_from_documents schema
        [.operation ⟨nm, ot1, ss1, v1⟩, .operation ⟨nm, ot2, ss2, v2⟩]
      = create_reference_registry_from_documents schema
          [.operation ⟨nm, ot2, ss2, v2⟩]
  ∧ create_reference_registry_from_documents schema
        [.fragment ⟨nm, tc1, fs1⟩, .fragment ⟨nm, tc2, fs2⟩]
      = create_reference_registry_from_documents schema
          [.fragment ⟨nm, tc2, fs2⟩] := by
  refine ⟨?_, ?_, rfl, ?_, ?_⟩
  · have h := collectFragmentsFrom_lookup n defs []
    cases hl : lastFragmentNamed n defs with
    | some v => simpa [collectFragments, hl] using h
    | none => simpa [collectFragments, hl, dictLookup] using h
  · have h := collectOperationsFrom_lookup n defs []
    cases hl : lastOperationNamed n defs with
    | some v => simpa [collectOperations, hl] using h
    | none => simpa [collectOperations, hl, dictLookup] using h
  · simp [create_reference_registry_from_documents, collectFragments,
      collectFragmentsFrom, collectOperations, collectOperationsFrom,
      dictInsert, walkFragmentValues]
  · simp [create_reference_registry_from_documents, collectFragments,
      collectFragmentsFrom, collectOperations, collectOperationsFrom,
      dictInsert, walkOperationValues]

end Turms
